import Mathlib

/-!
Verification of the generational document store of the `sensei` repository.

The embedding below translates `src/sensei/database/storage.py` (the document
operations `save_document`, `get_document_by_url`, `search_documents`,
`delete_documents_by_domain`) together with the `documents` table schema from
the alembic migrations `001_initial_schema.py` and `004_generation_based_crawls.py`.

The store is modelled as a list of rows; timestamps are modelled as natural
numbers supplied through an explicit `now` parameter; the SQL `gen_random_uuid()`
values produced by migration 004's backfill are modelled as pairwise-distinct
naturals.
-/

namespace Sensei

/-- Result enum of `save_document` (`sensei.types.SaveResult`; the constructor
names `INSERTED`, `UPDATED`, `SKIPPED` are the ones used by `storage.py` and
`tests/test_database.py`). The spec calls the `SKIPPED` outcome `UNCHANGED`. -/
inductive SaveResult where
  | INSERTED
  | UPDATED
  | SKIPPED
deriving DecidableEq, Repr

/-- A row of the `documents` table. Columns are those created by migration 001
(`domain`, `url`, `path`, `content`, `content_hash`, `content_refreshed_at`,
`depth`, `inserted_at`, `updated_at`) plus the two columns added by migration
004 (`generation_id`, nullable until backfilled, and `generation_active` with
server default `false`). `storage.py` still reads and writes `depth`, so the
row keeps both `depth` and the generation columns. The `id` primary key is
omitted: no operation under verification reads it. -/
structure Document where
  domain : String
  url : String
  path : String
  content : String
  content_hash : String
  depth : Nat
  content_refreshed_at : Nat
  generation_id : Option Nat
  generation_active : Bool
  inserted_at : Nat
  updated_at : Nat
deriving DecidableEq, Repr

/-- The `documents` table state. -/
abbrev Store := List Document

/-- Replace the first row satisfying `p` by its image under `f`, leaving all
other rows in place. This is how the ORM session commit of a mutation of the
single object returned by `SELECT ... WHERE url = :url` acts on the table. -/
def updateFirst (p : Document → Bool) (f : Document → Document) : Store → Store
  | [] => []
  | d :: ds => if p d then f d :: ds else d :: updateFirst p f ds

/-- The field mutation performed by `save_document` on an existing row whose
`content_hash` differs: `existing.content = content; existing.content_hash =
content_hash; existing.depth = depth; existing.content_refreshed_at = now`,
followed by a commit which also refreshes the `updated_at` bookkeeping column
(the ORM model file is not part of the sources under verification; following
the spec's description of `updated_at` as row bookkeeping, the commit stamps
it with `now`). -/
def contentUpdate (content content_hash : String) (depth now : Nat)
    (d : Document) : Document :=
  { d with content := content, content_hash := content_hash, depth := depth,
           content_refreshed_at := now, updated_at := now }

/-- The row built by `save_document`'s insert branch: `Document(domain=...,
url=..., path=..., content=..., content_hash=..., depth=...)`. Only the six
constructor arguments are supplied, so the remaining columns take the schema
defaults: `generation_id` is not set (NULL), `generation_active` defaults to
`false` (migration 004's server default), and the timestamp columns default
to the current time. -/
def insertedDoc (domain url path content content_hash : String)
    (depth now : Nat) : Document :=
  { domain := domain, url := url, path := path, content := content,
    content_hash := content_hash, depth := depth,
    content_refreshed_at := now, generation_id := none,
    generation_active := false, inserted_at := now, updated_at := now }

/-- Embeds `storage.save_document(domain, url, path, content, content_hash, depth)`:
select the row with this `url`; if it exists and its `content_hash` equals the
given one, return `SKIPPED` without touching the table; if it exists with a
different hash, mutate its content fields and return `UPDATED`; otherwise
insert a new row and return `INSERTED`. -/
def save_document (domain url path content content_hash : String)
    (depth now : Nat) (s : Store) : SaveResult × Store :=
  match s.find? (fun d => d.url == url) with
  | some existing =>
      if existing.content_hash == content_hash then
        (SaveResult.SKIPPED, s)
      else
        (SaveResult.UPDATED,
          updateFirst (fun d => d.url == url)
            (contentUpdate content content_hash depth now) s)
  | none =>
      (SaveResult.INSERTED,
        s ++ [insertedDoc domain url path content content_hash depth now])

/-- Embeds `storage.get_document_by_url(url)`: `SELECT ... WHERE url = :url`,
`scalar_one_or_none()` — the row if present, `None` otherwise. -/
def get_document_by_url (url : String) (s : Store) : Option Document :=
  s.find? (fun d => d.url == url)

/-- Case-insensitive substring test over lists of characters: does `needle`
occur contiguously inside the haystack? -/
def isInfixOfCL (needle : List Char) : List Char → Bool
  | [] => needle.isEmpty
  | c :: rest => needle.isPrefixOf (c :: rest) || isInfixOfCL needle rest

/-- SQLAlchemy's `Document.content.icontains(query, autoescape=True)`:
case-insensitive containment of the literal `query` (wildcards escaped)
inside `content`, i.e. `lower(content) LIKE '%' || lower(query) || '%'`. -/
def icontains (content query : String) : Bool :=
  isInfixOfCL (query.data.map Char.toLower) (content.data.map Char.toLower)

/-- Python truthiness of the `domain` argument: `if domain:` holds exactly
when `domain` is neither `None` nor the empty string. -/
def pyTruthy : Option String → Bool
  | some d => !(d == "")
  | none => false

/-- Embeds `storage.search_documents(query, domain, limit)`: optionally filter by
`domain` equality (only when `domain` is truthy), then filter on
case-insensitive content containment, then apply the `LIMIT`. The function
never consults `generation_id` or `generation_active`. -/
def search_documents (query : String) (domain : Option String) (limit : Nat)
    (s : Store) : List Document :=
  let base := if pyTruthy domain then
      s.filter (fun doc => doc.domain == domain.getD "") else s
  (base.filter (fun doc => icontains doc.content query)).take limit

/-- Embeds `storage.delete_documents_by_domain(domain)`: `DELETE FROM documents WHERE
domain = :domain`, returning the `rowcount` (number of rows matched and
deleted). -/
def delete_documents_by_domain (domain : String) (s : Store) : Nat × Store :=
  ((s.filter (fun d => d.domain == domain)).length,
   s.filter (fun d => !(d.domain == domain)))

/-- The backfill `UPDATE` of migration `004_generation_based_crawls.py`:
every row whose `generation_id` is NULL receives its own fresh
`gen_random_uuid()` as generation id and is marked `generation_active = true`.
Freshness of the uuids is modelled by numbering the rows by position. -/
def migration004_backfill (s : Store) : Store :=
  s.enum.map (fun (i, d) =>
    if d.generation_id == none then
      { d with generation_id := some i, generation_active := true }
    else d)

/-- The `url` column is globally unique (migration 001:
`sa.UniqueConstraint("url")`): no two rows of the store share a url. -/
def NodupUrls (s : Store) : Prop :=
  (s.map (fun d => d.url)).Nodup

/-- The spec's all-or-nothing activation invariant, stated over row pairs:
(a) any two active rows of the same domain carry the same `generation_id`
(at most one active generation per domain), and (b) any row sharing domain
and `generation_id` with an active row is itself active (activation is
all-or-nothing per domain). -/
def DomainGenInvariant (s : Store) : Prop :=
  (∀ d₁ ∈ s, ∀ d₂ ∈ s, d₁.domain = d₂.domain → d₁.generation_active = true →
      d₂.generation_active = true → d₁.generation_id = d₂.generation_id) ∧
  (∀ d₁ ∈ s, ∀ d₂ ∈ s, d₁.domain = d₂.domain → d₁.generation_active = true →
      d₁.generation_id = d₂.generation_id → d₂.generation_active = true)

/-- Auxiliary reachable-state fact: every active row carries a (non-NULL)
generation id. Activation only ever marks rows of a concrete generation
(the 004 backfill assigns an id in the same statement that activates), and
rows inserted by `save_document` are inactive, so all reachable states
satisfy this. -/
def ActiveTagged (s : Store) : Prop :=
  ∀ d ∈ s, d.generation_active = true → d.generation_id ≠ none

/-- A stale row of an earlier crawl: it belongs to generation 7 of
`example.com`, is not part of the active set, and holds content `v1`
fingerprinted `h1`. Used to evaluate `save_document` against the spec's
generation-stamping contract. -/
def staleGenRow : Document :=
  { domain := "example.com", url := "https://example.com/doc", path := "/doc",
    content := "v1", content_hash := "h1", depth := 0, content_refreshed_at := 5,
    generation_id := some 7, generation_active := false, inserted_at := 5,
    updated_at := 5 }

/-- An inactive `vue.io` row whose content contains the term `react`.
Used to evaluate the domain-scoped search against the spec's active-set
restriction. -/
def vueRow : Document :=
  { domain := "vue.io", url := "https://vue.io/interop", path := "/interop",
    content := "React interop guide", content_hash := "hv", depth := 0,
    content_refreshed_at := 0, generation_id := some 3,
    generation_active := false, inserted_at := 0, updated_at := 0 }

/-- An active row of domain `d` tagged with generation 1; a store holding
just this row satisfies the activation invariant. -/
def activeRow : Document :=
  { domain := "d", url := "https://d/a", path := "/a", content := "A",
    content_hash := "ha", depth := 0, content_refreshed_at := 0,
    generation_id := some 1, generation_active := true, inserted_at := 0,
    updated_at := 0 }

/-- A store reached from empty by two `save_document` inserts in domain `d`:
the state of a freshly crawled two-page domain at the moment migration 004
runs (both rows have `generation_id` NULL). -/
def twoRowStore : Store :=
  (save_document "d" "https://d/b" "/b" "B" "hb" 0 0
    (save_document "d" "https://d/a" "/a" "A" "ha" 0 0 []).2).2

instance (s : Store) : Decidable (NodupUrls s) := by
  unfold NodupUrls
  exact List.nodupDecidable _

instance (s : Store) : Decidable (ActiveTagged s) := by
  unfold ActiveTagged
  exact List.decidableBAll _ s

instance (s : Store) : Decidable (DomainGenInvariant s) := by
  unfold DomainGenInvariant
  exact instDecidableAnd

/-- Updating a row in place never changes the number of rows. -/
theorem updateFirst_length (p : Document → Bool) (f : Document → Document) :
    ∀ s : Store, (updateFirst p f s).length = s.length
  | [] => rfl
  | d :: ds => by
      simp only [updateFirst]
      split
      · simp
      · simp [updateFirst_length p f ds]

/-- A column that the row mutation `f` preserves reads the same before and
after `updateFirst`. -/
theorem updateFirst_map {α : Type} (g : Document → α) (p : Document → Bool)
    (f : Document → Document) (hf : ∀ d, g (f d) = g d) :
    ∀ s : Store, (updateFirst p f s).map g = s.map g
  | [] => rfl
  | d :: ds => by
      simp only [updateFirst]
      split
      · simp [hf]
      · simp [updateFirst_map g p f hf ds]

/-- Every row of `updateFirst p f s` is either an original row of `s` or the
image under `f` of an original row of `s`. -/
theorem updateFirst_shadow (p : Document → Bool) (f : Document → Document) :
    ∀ s : Store, ∀ x ∈ updateFirst p f s, x ∈ s ∨ ∃ y, y ∈ s ∧ x = f y
  | [], x, hx => absurd hx (List.not_mem_nil x)
  | d :: ds, x, hx => by
      simp only [updateFirst] at hx
      split at hx
      · rcases List.mem_cons.mp hx with h | h
        · exact Or.inr ⟨d, List.mem_cons_self d ds, h⟩
        · exact Or.inl (List.mem_cons_of_mem d h)
      · rcases List.mem_cons.mp hx with h | h
        · exact Or.inl (h ▸ List.mem_cons_self d ds)
        · rcases updateFirst_shadow p f ds x h with h' | ⟨y, hy, hxy⟩
          · exact Or.inl (List.mem_cons_of_mem d h')
          · exact Or.inr ⟨y, List.mem_cons_of_mem d hy, hxy⟩

/-- The row `find?` selects is replaced by its image in `updateFirst`. -/
theorem find?_mem_updateFirst (p : Document → Bool) (f : Document → Document) :
    ∀ (s : Store) (r : Document), s.find? p = some r →
      f r ∈ updateFirst p f s
  | [], r, h => by simp at h
  | d :: ds, r, h => by
      simp only [updateFirst]
      by_cases hp : p d
      · rw [List.find?_cons_of_pos ds hp] at h
        obtain rfl : d = r := Option.some.inj h
        simp [hp]
      · rw [List.find?_cons_of_neg ds hp] at h
        simp only [if_neg hp]
        exact List.mem_cons_of_mem d (find?_mem_updateFirst p f ds r h)

/-- In a store with globally unique urls, `find?` on a url returns exactly
the member row bearing that url. -/
theorem find?_of_mem_nodup (u : String) :
    ∀ s : Store, NodupUrls s → ∀ r ∈ s, r.url = u →
      s.find? (fun d => d.url == u) = some r
  | [], _, r, hr, _ => absurd hr (List.not_mem_nil r)
  | a :: t, hn, r, hr, hu => by
      have hn' := (List.nodup_cons.mp hn)
      rcases List.mem_cons.mp hr with rfl | hrt
      · exact List.find?_cons_of_pos t (by simp [hu])
      · have hau : a.url ≠ u := by
          intro hcontra
          have hmem : a.url ∈ List.map (fun d => d.url) t := by
            rw [hcontra, ← hu]
            exact List.mem_map_of_mem (fun d => d.url) hrt
          exact hn'.1 hmem
        rw [List.find?_cons_of_neg t (by simp [hau])]
        exact find?_of_mem_nodup u t hn'.2 r hrt hu

/-- In a store with globally unique urls, two member rows with the same url
are the same row. -/
theorem mem_url_eq {s : Store} (hn : NodupUrls s) {z r : Document}
    (hz : z ∈ s) (hr : r ∈ s) (he : z.url = r.url) : z = r := by
  have h₁ := find?_of_mem_nodup r.url s hn z hz he
  have h₂ := find?_of_mem_nodup r.url s hn r hr rfl
  rw [h₁] at h₂
  exact Option.some.inj h₂

/-- Rows returned by `search_documents` are rows of the store. -/
theorem search_documents_subset (q : String) (odom : Option String)
    (lim : Nat) (s : Store) :
    ∀ r ∈ search_documents q odom lim s, r ∈ s := by
  intro r hr
  simp only [search_documents] at hr
  have hr' := List.mem_of_mem_take hr
  have hr'' := (List.mem_filter.mp hr').1
  split at hr''
  · exact (List.mem_filter.mp hr'').1
  · exact hr''

/-- Splitting the store by a Boolean column test preserves the row count. -/
theorem length_filter_pos_neg (p : Document → Bool) (s : Store) :
    (s.filter p).length + (s.filter (fun d => !(p d))).length = s.length := by
  have h := List.length_eq_length_filter_add (l := s) p
  omega

/-- Insert branch of `save_document`: on a url absent from the store it
appends the default-initialised row and reports `INSERTED`. -/
theorem save_document_of_fresh (dom url path c ch : String) (dep now : Nat)
    (s : Store) (hfresh : ∀ r ∈ s, r.url ≠ url) :
    save_document dom url path c ch dep now s =
      (SaveResult.INSERTED, s ++ [insertedDoc dom url path c ch dep now]) := by
  have hnone : s.find? (fun d => d.url == url) = none :=
    List.find?_eq_none.mpr (fun r hr => by simp [hfresh r hr])
  simp [save_document, hnone]

/-- Skip branch of `save_document`: on a url whose stored row already holds
the given fingerprint it leaves the store untouched and reports `SKIPPED`. -/
theorem save_document_of_same_hash (dom url path c ch : String)
    (dep now : Nat) (s : Store) (hn : NodupUrls s) (r : Document) (hr : r ∈ s)
    (hu : r.url = url) (hh : r.content_hash = ch) :
    save_document dom url path c ch dep now s = (SaveResult.SKIPPED, s) := by
  simp [save_document, find?_of_mem_nodup url s hn r hr hu, hh]

/-- Update branch of `save_document`: on a url whose stored row holds a
different fingerprint it mutates that row in place and reports `UPDATED`. -/
theorem save_document_of_diff_hash (dom url path c ch : String)
    (dep now : Nat) (s : Store) (hn : NodupUrls s) (r : Document) (hr : r ∈ s)
    (hu : r.url = url) (hh : r.content_hash ≠ ch) :
    save_document dom url path c ch dep now s =
      (SaveResult.UPDATED,
        updateFirst (fun d => d.url == url) (contentUpdate c ch dep now) s) := by
  simp [save_document, find?_of_mem_nodup url s hn r hr hu, hh]

/-- The activation invariant only reads the `domain`, `generation_id` and
`generation_active` columns, so it transfers along any map that gives each
row of `t` a row of `s` agreeing on those three columns. -/
theorem domainGenInvariant_of_shadow {s t : Store}
    (hsh : ∀ x ∈ t, ∃ y ∈ s, x.domain = y.domain ∧
      x.generation_id = y.generation_id ∧
      x.generation_active = y.generation_active)
    (hinv : DomainGenInvariant s) (htag : ActiveTagged s) :
    DomainGenInvariant t ∧ ActiveTagged t := by
  refine ⟨⟨?_, ?_⟩, ?_⟩
  · intro d₁ h₁ d₂ h₂ hdom ha₁ ha₂
    obtain ⟨y₁, hy₁, e₁d, e₁g, e₁a⟩ := hsh d₁ h₁
    obtain ⟨y₂, hy₂, e₂d, e₂g, e₂a⟩ := hsh d₂ h₂
    rw [e₁g, e₂g]
    exact hinv.1 y₁ hy₁ y₂ hy₂ (by rw [← e₁d, ← e₂d, hdom])
      (by rw [← e₁a]; exact ha₁) (by rw [← e₂a]; exact ha₂)
  · intro d₁ h₁ d₂ h₂ hdom ha₁ hg
    obtain ⟨y₁, hy₁, e₁d, e₁g, e₁a⟩ := hsh d₁ h₁
    obtain ⟨y₂, hy₂, e₂d, e₂g, e₂a⟩ := hsh d₂ h₂
    rw [e₂a]
    exact hinv.2 y₁ hy₁ y₂ hy₂ (by rw [← e₁d, ← e₂d, hdom])
      (by rw [← e₁a]; exact ha₁) (by rw [← e₁g, ← e₂g, hg])
  · intro x hx ha
    obtain ⟨y, hy, _, eg, ea⟩ := hsh x hx
    rw [eg]
    exact htag y hy (by rw [← ea]; exact ha)

/-- Appending a freshly inserted row (inactive, NULL generation) preserves
the activation invariant together with `ActiveTagged`. -/
theorem domainGenInvariant_insert {s : Store}
    (dom url path c ch : String) (dep now : Nat)
    (hinv : DomainGenInvariant s) (htag : ActiveTagged s) :
    DomainGenInvariant (s ++ [insertedDoc dom url path c ch dep now]) ∧
    ActiveTagged (s ++ [insertedDoc dom url path c ch dep now]) := by
  have hnew_mem : ∀ x : Document,
      x ∈ s ++ [insertedDoc dom url path c ch dep now] →
      x ∈ s ∨ x = insertedDoc dom url path c ch dep now := by
    intro x hx
    rcases List.mem_append.mp hx with h | h
    · exact Or.inl h
    · exact Or.inr (by simpa using h)
  refine ⟨⟨?_, ?_⟩, ?_⟩
  · intro d₁ h₁ d₂ h₂ hdom ha₁ ha₂
    rcases hnew_mem d₁ h₁ with h₁s | rfl
    · rcases hnew_mem d₂ h₂ with h₂s | rfl
      · exact hinv.1 d₁ h₁s d₂ h₂s hdom ha₁ ha₂
      · exact absurd ha₂ (by simp [insertedDoc])
    · exact absurd ha₁ (by simp [insertedDoc])
  · intro d₁ h₁ d₂ h₂ hdom ha₁ hg
    rcases hnew_mem d₁ h₁ with h₁s | rfl
    · rcases hnew_mem d₂ h₂ with h₂s | rfl
      · exact hinv.2 d₁ h₁s d₂ h₂s hdom ha₁ hg
      · exact absurd hg (htag d₁ h₁s ha₁)
    · exact absurd ha₁ (by simp [insertedDoc])
  · intro x hx ha
    rcases hnew_mem x hx with hs | rfl
    · exact htag x hs ha
    · exact absurd ha (by simp [insertedDoc])

/-- C1: `save_document` is an upsert on `url`: with no row for the url it
inserts a new row and returns `INSERTED`; with an existing row whose
`content_hash` differs it returns `UPDATED`; with an existing row whose
`content_hash` is identical it returns `SKIPPED` (the outcome the spec calls
`UNCHANGED`) and leaves the store untouched. Consequently upserting the same
`(url, content)` twice yields `INSERTED` then `SKIPPED`, never `UPDATED`. -/
theorem save_document_upsert_result_cases
    (s : Store) (dom url path c ch : String) (dep now dep₂ now₂ : Nat)
    (hnodup : NodupUrls s) :
    ((∀ r ∈ s, r.url ≠ url) →
        save_document dom url path c ch dep now s =
          (SaveResult.INSERTED,
            s ++ [insertedDoc dom url path c ch dep now]) ∧
        (save_document dom url path c ch dep₂ now₂
            (save_document dom url path c ch dep now s).2).1
          = SaveResult.SKIPPED) ∧
    (∀ r ∈ s, r.url = url → r.content_hash ≠ ch →
        (save_document dom url path c ch dep now s).1 = SaveResult.UPDATED) ∧
    (∀ r ∈ s, r.url = url → r.content_hash = ch →
        (save_document dom url path c ch dep now s).1 = SaveResult.SKIPPED ∧
        (save_document dom url path c ch dep now s).2 = s) := by
  refine ⟨?_, ?_, ?_⟩
  · intro hfresh
    have h₁ := save_document_of_fresh dom url path c ch dep now s hfresh
    refine ⟨h₁, ?_⟩
    rw [h₁]
    have hnone : s.find? (fun d => d.url == url) = none :=
      List.find?_eq_none.mpr (fun r hr => by simp [hfresh r hr])
    simp [save_document, hnone, insertedDoc]
  · intro r hr hu hh
    rw [save_document_of_diff_hash dom url path c ch dep now s hnodup r hr hu hh]
  · intro r hr hu hh
    rw [save_document_of_same_hash dom url path c ch dep now s hnodup r hr hu hh]
    exact ⟨rfl, rfl⟩

/-- Witness for C1: on the empty store, saving a document returns
`INSERTED`, and immediately re-saving the identical document returns
`SKIPPED`. -/
theorem save_document_upsert_result_cases_check :
    save_document "d" "https://d/a" "/a" "A" "ha" 0 1 [] =
      (SaveResult.INSERTED, [] ++ [insertedDoc "d" "https://d/a" "/a" "A" "ha" 0 1]) ∧
    (save_document "d" "https://d/a" "/a" "A" "ha" 0 2
        (save_document "d" "https://d/a" "/a" "A" "ha" 0 1 []).2).1
      = SaveResult.SKIPPED :=
  (save_document_upsert_result_cases [] "d" "https://d/a" "/a" "A" "ha"
    0 1 0 2 (by decide)).1 (by decide)

/-- C2: contrary to the spec's generation-stamping contract, on an existing row with a differing
`content_hash`, `save_document` rewrites `content`, `content_hash` and
`content_refreshed_at` but leaves `generation_id` at its previous value
(the function takes no generation argument at all); on an identical
`content_hash` it changes nothing whatsoever — in particular neither
`generation_id` nor `updated_at` is refreshed, contrary to the spec's
generation-stamping contract for the upsert. -/
theorem save_document_generation_id_untouched :
    ((save_document "example.com" "https://example.com/doc" "/doc" "v2" "h2"
        0 9 [staleGenRow]).1 = SaveResult.UPDATED ∧
      ∃ r ∈ (save_document "example.com" "https://example.com/doc" "/doc" "v2"
          "h2" 0 9 [staleGenRow]).2,
        r.url = "https://example.com/doc" ∧ r.generation_id = some 7 ∧
        r.content = "v2" ∧ r.content_hash = "h2" ∧
        r.content_refreshed_at = 9 ∧ staleGenRow.content_refreshed_at = 5) ∧
    save_document "example.com" "https://example.com/doc" "/doc" "v1" "h1"
        0 9 [staleGenRow] = (SaveResult.SKIPPED, [staleGenRow]) := by
  decide

/-- C3 (counterexample): the backfill of migration 004, run on a reachable
store holding two rows of the same domain (both inserted by `save_document`,
hence with NULL `generation_id`), gives every row its own fresh generation id
and marks it active — leaving domain `d` with two simultaneously active
generations, so the at-most-one-active-generation-per-domain invariant does
not hold in every reachable state. -/
theorem migration004_breaks_single_active_generation :
    (∃ d₁ ∈ migration004_backfill twoRowStore,
      ∃ d₂ ∈ migration004_backfill twoRowStore,
        d₁.domain = d₂.domain ∧ d₁.generation_active = true ∧
        d₂.generation_active = true ∧ d₁.generation_id ≠ d₂.generation_id) ∧
    ¬ DomainGenInvariant (migration004_backfill twoRowStore) := by
  decide

/-- C3 (amended): each exposed store operation preserves the all-or-nothing
activation invariant, strengthened with the reachable-state fact that active
rows carry a generation id: `save_document` (whose inserts are inactive with
NULL generation), `delete_documents_by_domain` (which only removes rows), and
`search_documents` (which reads rows of the store without modifying it). -/
theorem store_ops_preserve_domain_generation_invariant
    (s : Store) (dom url path c ch dd q : String) (dep now lim : Nat)
    (odom : Option String)
    (hinv : DomainGenInvariant s) (htag : ActiveTagged s) :
    (DomainGenInvariant (save_document dom url path c ch dep now s).2 ∧
      ActiveTagged (save_document dom url path c ch dep now s).2) ∧
    (DomainGenInvariant (delete_documents_by_domain dd s).2 ∧
      ActiveTagged (delete_documents_by_domain dd s).2) ∧
    (∀ r ∈ search_documents q odom lim s, r ∈ s) := by
  refine ⟨?_, ?_, search_documents_subset q odom lim s⟩
  · cases hf : s.find? (fun d => d.url == url) with
    | none =>
        have h₂ : (save_document dom url path c ch dep now s).2
            = s ++ [insertedDoc dom url path c ch dep now] := by
          simp [save_document, hf]
        rw [h₂]
        exact domainGenInvariant_insert dom url path c ch dep now hinv htag
    | some r =>
        by_cases hh : r.content_hash = ch
        · have h₂ : (save_document dom url path c ch dep now s).2 = s := by
            simp [save_document, hf, hh]
          rw [h₂]
          exact ⟨hinv, htag⟩
        · have h₂ : (save_document dom url path c ch dep now s).2
              = updateFirst (fun d => d.url == url)
                  (contentUpdate c ch dep now) s := by
            simp [save_document, hf, hh]
          rw [h₂]
          refine domainGenInvariant_of_shadow ?_ hinv htag
          intro x hx
          rcases updateFirst_shadow (fun d => d.url == url)
              (contentUpdate c ch dep now) s x hx with h | ⟨y, hy, rfl⟩
          · exact ⟨x, h, rfl, rfl, rfl⟩
          · exact ⟨y, hy, rfl, rfl, rfl⟩
  · refine domainGenInvariant_of_shadow ?_ hinv htag
    intro x hx
    simp only [delete_documents_by_domain] at hx
    exact ⟨x, (List.mem_filter.mp hx).1, rfl, rfl, rfl⟩

/-- Witness for C3 (amended): a store holding one active generation-1 row of
domain `d` satisfies the invariant, and it still does after an upsert of a
new url in that domain and after deleting another domain. -/
theorem store_ops_preserve_domain_generation_invariant_check :
    DomainGenInvariant
        (save_document "d" "https://d/new" "/n" "N" "hn" 0 4 [activeRow]).2 ∧
    DomainGenInvariant (delete_documents_by_domain "other" [activeRow]).2 :=
  ⟨(store_ops_preserve_domain_generation_invariant [activeRow] "d"
      "https://d/new" "/n" "N" "hn" "other" "A" 0 4 10 none
      (by decide) (by decide)).1.1,
   (store_ops_preserve_domain_generation_invariant [activeRow] "d"
      "https://d/new" "/n" "N" "hn" "other" "A" 0 4 10 none
      (by decide) (by decide)).2.1.1⟩

/-- C4: contrary to the spec's active-set restriction, the domain-scoped search is not restricted to
the active set — a row with `generation_active = false` is returned by
`search_documents` when its domain matches, because the implementation
filters on domain equality only and never consults `generation_active`. -/
theorem search_documents_returns_inactive_rows :
    search_documents "react" (some "vue.io") 10 [vueRow] = [vueRow] ∧
    vueRow.generation_active = false := by
  decide

/-- C5: `delete_documents_by_domain D` removes exactly the rows of domain `D`
— across all generations, active or not — keeps every row of every other
domain, and returns the exact number of rows removed, zero when the domain
has no rows. -/
theorem delete_documents_by_domain_spec (s : Store) (dd : String) :
    (∀ r : Document,
        r ∈ (delete_documents_by_domain dd s).2 ↔ (r ∈ s ∧ r.domain ≠ dd)) ∧
    (delete_documents_by_domain dd s).1
        + (delete_documents_by_domain dd s).2.length = s.length ∧
    ((∀ r ∈ s, r.domain ≠ dd) → (delete_documents_by_domain dd s).1 = 0) := by
  refine ⟨?_, ?_, ?_⟩
  · intro r
    simp [delete_documents_by_domain, List.mem_filter]
  · exact length_filter_pos_neg (fun r => r.domain == dd) s
  · intro h
    have hnil : s.filter (fun r => r.domain == dd) = [] :=
      List.filter_eq_nil_iff.mpr (fun r hr => by simp [h r hr])
    simp [delete_documents_by_domain, hnil]

/-- Witness for C5: deleting domain `d` from a two-domain store removes the
`d` row, keeps the `vue.io` row, and reports one row removed. -/
theorem delete_documents_by_domain_spec_check :
    (∀ r : Document,
        r ∈ (delete_documents_by_domain "d" [activeRow, vueRow]).2
          ↔ (r ∈ [activeRow, vueRow] ∧ r.domain ≠ "d")) ∧
    (delete_documents_by_domain "d" [activeRow, vueRow]).1
        + (delete_documents_by_domain "d" [activeRow, vueRow]).2.length
        = [activeRow, vueRow].length ∧
    ((∀ r ∈ [activeRow, vueRow], r.domain ≠ "d") →
        (delete_documents_by_domain "d" [activeRow, vueRow]).1 = 0) :=
  delete_documents_by_domain_spec [activeRow, vueRow] "d"

/-- C6: `save_document` leaves the `generation_active` column of every
pre-existing row untouched, and the row it inserts (when it returns
`INSERTED`) starts with `generation_active = false`; visibility is never
flipped by the upsert. -/
theorem save_document_preserves_generation_active_column
    (s : Store) (dom url path c ch : String) (dep now : Nat) :
    (save_document dom url path c ch dep now s).2.map
        (fun d => d.generation_active)
      = s.map (fun d => d.generation_active) ++
        (if (save_document dom url path c ch dep now s).1
            = SaveResult.INSERTED then [false] else []) := by
  cases hf : s.find? (fun d => d.url == url) with
  | none =>
      simp [save_document, hf, insertedDoc]
  | some r =>
      by_cases hh : r.content_hash = ch
      · simp [save_document, hf, hh]
      · simp [save_document, hf, hh,
          updateFirst_map (fun d => d.generation_active)
            (fun d => d.url == url) (contentUpdate c ch dep now)
            (fun d => rfl) s]

/-- C7: `url` is globally unique across any sequence of upserts: starting
from a store with no duplicate urls, `save_document` never creates one, and
an upsert that re-observes an existing url leaves the row count unchanged
(it updates in place rather than inserting a second row). -/
theorem save_document_at_most_one_row_per_url
    (s : Store) (dom url path c ch : String) (dep now : Nat)
    (hnodup : NodupUrls s) :
    NodupUrls (save_document dom url path c ch dep now s).2 ∧
    ((∃ r ∈ s, r.url = url) →
      (save_document dom url path c ch dep now s).2.length = s.length) := by
  by_cases hex : ∃ r ∈ s, r.url = url
  · obtain ⟨r, hr, hu⟩ := hex
    by_cases hh : r.content_hash = ch
    · rw [save_document_of_same_hash dom url path c ch dep now s hnodup r hr hu hh]
      exact ⟨hnodup, fun _ => rfl⟩
    · rw [save_document_of_diff_hash dom url path c ch dep now s hnodup r hr hu hh]
      constructor
      · unfold NodupUrls
        rw [updateFirst_map (fun d => d.url) (fun d => d.url == url)
          (contentUpdate c ch dep now) (fun d => rfl) s]
        exact hnodup
      · intro _
        exact updateFirst_length (fun d => d.url == url)
          (contentUpdate c ch dep now) s
  · have hfresh : ∀ r ∈ s, r.url ≠ url := fun r hr hu => hex ⟨r, hr, hu⟩
    rw [save_document_of_fresh dom url path c ch dep now s hfresh]
    refine ⟨?_, fun hex' => absurd hex' hex⟩
    unfold NodupUrls
    rw [List.map_append]
    refine List.Nodup.append hnodup (by simp) ?_
    intro x hx hx'
    obtain ⟨y, hy, rfl⟩ := List.mem_map.mp hx
    have : y.url = url := by simpa [insertedDoc] using hx'
    exact hfresh y hy this

/-- Witness for C7: upserting new content for the already-present url of a
one-row store keeps urls duplicate-free and does not grow the store. -/
theorem save_document_at_most_one_row_per_url_check :
    NodupUrls
      (save_document "d2" "https://d/a" "/p" "c2" "h2" 0 9 [activeRow]).2 ∧
    ((∃ r ∈ [activeRow], r.url = "https://d/a") →
      (save_document "d2" "https://d/a" "/p" "c2" "h2" 0 9 [activeRow]).2.length
        = [activeRow].length) :=
  save_document_at_most_one_row_per_url [activeRow] "d2" "https://d/a" "/p"
    "c2" "h2" 0 9 (by decide)

/-- C8: `get_document_by_url` reports absence as an ordinary `none` result
when no row bears the url, and returns exactly the stored row when one
does. -/
theorem get_document_by_url_absence_and_presence (s : Store) (u : String) :
    ((∀ r ∈ s, r.url ≠ u) → get_document_by_url u s = none) ∧
    (NodupUrls s → ∀ r ∈ s, r.url = u → get_document_by_url u s = some r) := by
  constructor
  · intro habs
    exact List.find?_eq_none.mpr (fun r hr => by simp [habs r hr])
  · intro hn r hr hu
    exact find?_of_mem_nodup u s hn r hr hu

/-- Witness for C8: on a one-row store, looking up the stored url returns
the row and looking up another url returns `none`. -/
theorem get_document_by_url_absence_and_presence_check :
    get_document_by_url "https://d/a" [activeRow] = some activeRow ∧
    get_document_by_url "https://nowhere" [activeRow] = none :=
  ⟨(get_document_by_url_absence_and_presence [activeRow] "https://d/a").2
      (by decide) activeRow (by decide) (by decide),
   (get_document_by_url_absence_and_presence [activeRow] "https://nowhere").1
      (by decide)⟩

/-- C9: when `save_document` finds an existing row for the url, the `domain`
and `path` arguments are ignored: the surviving row for that url keeps the
domain and path stored at first insert, whatever values the caller passes. -/
theorem save_document_ignores_domain_path_on_existing
    (s : Store) (dom₂ url path₂ c ch : String) (dep now : Nat)
    (hnodup : NodupUrls s) (r : Document) (hr : r ∈ s) (hu : r.url = url) :
    (∃ r' ∈ (save_document dom₂ url path₂ c ch dep now s).2,
        r'.url = url ∧ r'.domain = r.domain ∧ r'.path = r.path) ∧
    (∀ r' ∈ (save_document dom₂ url path₂ c ch dep now s).2,
        r'.url = url → r'.domain = r.domain ∧ r'.path = r.path) := by
  by_cases hh : r.content_hash = ch
  · rw [save_document_of_same_hash dom₂ url path₂ c ch dep now s hnodup r hr hu hh]
    constructor
    · exact ⟨r, hr, hu, rfl, rfl⟩
    · intro r' hr' hu'
      have he : r' = r := mem_url_eq hnodup hr' hr (by rw [hu', hu])
      rw [he]
      exact ⟨rfl, rfl⟩
  · rw [save_document_of_diff_hash dom₂ url path₂ c ch dep now s hnodup r hr hu hh]
    constructor
    · refine ⟨contentUpdate c ch dep now r, ?_, hu, rfl, rfl⟩
      exact find?_mem_updateFirst (fun d => d.url == url)
        (contentUpdate c ch dep now) s r
        (find?_of_mem_nodup url s hnodup r hr hu)
    · intro r' hr' hu'
      rcases updateFirst_shadow (fun d => d.url == url)
          (contentUpdate c ch dep now) s r' hr' with h' | ⟨y, hy, rfl⟩
      · have he : r' = r := mem_url_eq hnodup h' hr (by rw [hu', hu])
        rw [he]
        exact ⟨rfl, rfl⟩
      · have hyu : y.url = url := hu'
        have he : y = r := mem_url_eq hnodup hy hr (by rw [hyu, hu])
        rw [he]
        exact ⟨rfl, rfl⟩

/-- Witness for C9: re-saving the stored url with a different domain and
path leaves the row's original domain and path in place. -/
theorem save_document_ignores_domain_path_on_existing_check :
    (∃ r' ∈ (save_document "other.com" "https://example.com/doc" "/elsewhere"
        "v2" "h2" 0 9 [staleGenRow]).2,
      r'.url = "https://example.com/doc" ∧ r'.domain = staleGenRow.domain ∧
      r'.path = staleGenRow.path) ∧
    (∀ r' ∈ (save_document "other.com" "https://example.com/doc" "/elsewhere"
        "v2" "h2" 0 9 [staleGenRow]).2,
      r'.url = "https://example.com/doc" → r'.domain = staleGenRow.domain ∧
      r'.path = staleGenRow.path) :=
  save_document_ignores_domain_path_on_existing [staleGenRow] "other.com"
    "https://example.com/doc" "/elsewhere" "v2" "h2" 0 9 (by decide)
    staleGenRow (by decide) (by decide)

/-- C10: passing the empty string as `domain` is falsy in Python, so
`search_documents` applies no domain restriction at all and behaves exactly
like the store-wide search with `domain` omitted. -/
theorem search_documents_empty_domain_is_store_wide
    (q : String) (lim : Nat) (s : Store) :
    search_documents q (some "") lim s = search_documents q none lim s := rfl

end Sensei
